import Mathlib

/-!
Shallow embedding of the `superposition` repository core: the JSON-logic
dimension extractor and pod-info parser (`crates/service_utils/src/helpers.rs`)
and the experiment-creation orchestration
(`crates/experimentation-platform/src/api/experiments/handlers.rs`).

JSON values are modelled by an inductive `Json`; `serde_json::Map` values are
modelled by association lists with unique keys as produced by the parser
(lookup takes the first matching entry, which coincides with map access).
Numbers are modelled by `Int`: none of the verified properties inspects the
numeric payload. Fallible Rust functions return `Except`/`Option`; a Rust
panic is modelled by `Option.none` or a dedicated result constructor.
-/

set_option autoImplicit false

namespace Superposition

/-- A JSON value, as used by the dimension extractor and the handlers. -/
inductive Json where
  | null : Json
  | bool : Bool → Json
  | num : Int → Json
  | str : String → Json
  | arr : List Json → Json
  | obj : List (String × Json) → Json

/-- Map access on a JSON object body: first entry with the given key
(serde_json objects have unique keys, so this is exactly map lookup). -/
def mapGet : List (String × Json) → String → Option Json
  | [], _ => none
  | (k, v) :: rest, key => if k = key then some v else mapGet rest key

/-- Rust `Value::as_object`. -/
def Json.getObj : Json → Option (List (String × Json))
  | .obj kvs => some kvs
  | _ => none

/-- Rust `Value::as_array`. -/
def Json.getArr : Json → Option (List Json)
  | .arr xs => some xs
  | _ => none

/-- Rust `Value::as_str`. -/
def Json.getStr : Json → Option String
  | .str s => some s
  | _ => none

/-- Rust `Value::is_object`. -/
def Json.isObject : Json → Bool
  | .obj _ => true
  | _ => false

/-- The error kinds of `service_utils::result::AppError` used here. -/
inductive AppError where
  | BadArgument : String → AppError
  | UnexpectedError : String → AppError

/-- The predicate of the `find` closure in `get_variable_name_and_value`:
`operand.is_object() && operand.as_object().unwrap().get("var").is_some()`. -/
def isVariableReference (v : Json) : Bool :=
  match v with
  | .obj kvs => (mapGet kvs "var").isSome
  | _ => false

/-- `operands.iter().enumerate().find(..)`: first index (from `i`) and element
satisfying `isVariableReference`. -/
def findVar : List Json → Nat → Option (Nat × Json)
  | [], _ => none
  | x :: xs, i => if isVariableReference x then some (i, x) else findVar xs (i + 1)

/-- `service_utils::helpers::get_variable_name_and_value` (helpers.rs:169-202). -/
def get_variable_name_and_value (operands : List Json) :
    Except AppError (String × Json) :=
  match findVar operands 0 with
  | none => .error (.BadArgument "Failed to get variable name from operands list. Ensure the context provided obeys the rules of JSON logic")
  | some (obj_pos, variable_obj) =>
    match (variable_obj.getObj.bind (fun kvs => mapGet kvs "var")).bind Json.getStr with
    | none => .error (.BadArgument "Failed to get variable name as string. Ensure the context provided obeys the rules of JSON logic")
    | some variable_name =>
      let value_pos := (obj_pos + 1) % 2
      match operands.get? value_pos with
      | none => .error (.BadArgument "Failed to get variable value from operands list. Ensure the context provided obeys the rules of JSON logic")
      | some variable_value => .ok (variable_name, variable_value)

/-- Inner loop of `extract_dimensions` (helpers.rs:154-163): iterate a
condition object entry by entry (keys are the operators, in insertion order),
require each operator value to be an array, and extract one (name, value)
tuple per operator. -/
def conditionTuples : List (String × Json) → Except AppError (List (String × Json))
  | [] => .ok []
  | (_operator, opnds) :: rest =>
    match opnds with
    | .arr operands =>
      match get_variable_name_and_value operands with
      | .error e => .error e
      | .ok nv =>
        match conditionTuples rest with
        | .error e => .error e
        | .ok tl => .ok (nv :: tl)
    | _ => .error (.BadArgument "Failed to parse operands as an arrays. Ensure the context provided obeys the rules of JSON logic")

/-- Outer loop of `extract_dimensions` (helpers.rs:145-164): each condition
must be an object; tuples accumulate in condition order. -/
def conditionsTuples : List Json → Except AppError (List (String × Json))
  | [] => .ok []
  | c :: rest =>
    match c.getObj with
    | none => .error (.BadArgument "Failed to parse condition as an object. Ensure the context provided obeys the rules of JSON logic")
    | some condition_obj =>
      match conditionTuples condition_obj with
      | .error e => .error e
      | .ok ts =>
        match conditionsTuples rest with
        | .error e => .error e
        | .ok tl => .ok (ts ++ tl)

/-- One insertion step of `Map::from_iter`: a present key has its value
replaced in place (position kept), an absent key is appended. This is the
insertion-ordered map semantics the spec describes for the output mapping
(serde_json with the preserve_order feature; the feature flag lives in the
build manifest, outside the excerpted sources). -/
def mapInsert : List (String × Json) → String → Json → List (String × Json)
  | [], k, v => [(k, v)]
  | (a, b) :: t, k, v =>
    if a = k then (k, v) :: t else (a, b) :: mapInsert t k v

/-- `Map::from_iter(dimension_tuples)` (helpers.rs:166). -/
def mapFromIter (ts : List (String × Json)) : List (String × Json) :=
  ts.foldl (fun m kv => mapInsert m kv.1 kv.2) []

/-- `service_utils::helpers::extract_dimensions` (helpers.rs:128-167). -/
def extract_dimensions (context_json : Json) :
    Except AppError (List (String × Json)) :=
  match context_json.getObj with
  | none => .error (.BadArgument "Error extracting dimensions, contect not a valid JSON object. Provide a valid JSON context")
  | some context =>
    let conditionsE : Except AppError (List Json) :=
      match mapGet context "and" with
      | some conditions_json =>
        match conditions_json with
        | .arr cs => .ok cs
        | _ => .error (.BadArgument "Error extracting dimensions, failed parsing conditions as an array. Ensure the context provided obeys the rules of JSON logic")
      | none => .ok [context_json]
    match conditionsE with
    | .error e => .error e
    | .ok conditions =>
      match conditionsTuples conditions with
      | .error e => .error e
      | .ok dimension_tuples => .ok (mapFromIter dimension_tuples)

/-- Helper for `splitDash`: split a character list at each dash, keeping empty
pieces, with `acc` the (reversed) characters of the current piece. -/
def splitDashAux : List Char → List Char → List String
  | [], acc => [String.mk acc.reverse]
  | c :: cs, acc =>
    if c = '-' then String.mk acc.reverse :: splitDashAux cs []
    else splitDashAux cs (c :: acc)

/-- Rust `str::split("-")`: n dashes yield n+1 (possibly empty) pieces; the
empty string yields `[""]`. -/
def splitDash (s : String) : List String :=
  splitDashAux s.data []

/-- `service_utils::helpers::get_pod_info` (helpers.rs:113-126). The `HOSTNAME`
environment variable is passed explicitly (`none` models it being unset); a
`none` result models the panic of `expect`/`unwrap`. The hostname is split on
dashes, the token list reversed, and the first and third reversed tokens
returned as (pod_id, deployment_id). -/
def get_pod_info (hostname : Option String) : Option (String × String) :=
  match hostname with
  | none => none
  | some h =>
    match (splitDash h).reverse with
    | pod_id :: _replica_set :: deployment_id :: _ => some (pod_id, deployment_id)
    | _ => none

/-! ## Experimentation platform: experiment creation (handlers.rs `create`) -/

/-- `db::models::ExperimentStatusType` (only the state used at creation). -/
inductive ExperimentStatusType where
  | CREATED : ExperimentStatusType

/-- Variant type of an experiment arm. -/
inductive VariantType where
  | CONTROL : VariantType
  | EXPERIMENTAL : VariantType
deriving DecidableEq

/-- A variant of an `ExperimentCreateRequest` / persisted experiment. -/
structure Variant where
  id : String
  variant_type : VariantType
  overrides : List (String × Json)
  context_id : Option String
  override_id : Option String

/-- `types::ExperimentCreateRequest`. -/
structure ExperimentCreateRequest where
  name : String
  override_keys : List String
  traffic_percentage : Int
  context : Json
  variants : List Variant

/-- `types::ContextPutReq` sent to the context store. -/
structure ContextPutReq where
  context : List (String × Json)
  override : List (String × Json)

/-- `types::ContextAction` (the `create` handler only builds PUTs). -/
inductive ContextAction where
  | PUT : ContextPutReq → ContextAction

/-- `types::ContextPutResp` returned by the context store. -/
structure ContextPutResp where
  context_id : String
  override_id : String

/-- `db::models::Experiment` as built by the `create` handler (timestamps are
abstract integers supplied by the caller). -/
structure Experiment where
  id : Int
  created_by : String
  created_at : Int
  last_modified : Option Int
  name : String
  override_keys : List String
  traffic_percentage : Int
  status : ExperimentStatusType
  context : Json
  variants : List Variant

/-- Modelled from the spec: `check_variant_types` (its body lives in the
experimentation-platform helpers module, not among the excerpted sources).
Scanning the variant list, exactly one variant must have type CONTROL and at
least one must have type EXPERIMENTAL; any other distribution fails with a
validation error naming the violated cardinality. -/
def check_variant_types (variants : List Variant) : Except String Unit :=
  let counts := variants.foldl
    (fun (acc : Nat × Nat) v =>
      match v.variant_type with
      | .CONTROL => (acc.1 + 1, acc.2)
      | .EXPERIMENTAL => (acc.1, acc.2 + 1))
    (0, 0)
  if counts.1 ≠ 1 then
    .error ("experiment must have exactly 1 control variant, found " ++ toString counts.1)
  else if counts.2 < 1 then
    .error "experiment must have atleast 1 experimental variant"
  else
    .ok ()

/-- Modelled from the spec: `check_variants_override_coverage` (its body lives
in the experimentation-platform helpers module, not among the excerpted
sources). For every variant, the key-set of its overrides mapping must contain
every declared override key; the handler consumes the result as a plain
boolean. -/
def check_variants_override_coverage (variants : List Variant)
    (override_keys : List String) : Bool :=
  variants.all (fun v => override_keys.all (fun k => (mapGet v.overrides k).isSome))

/-- The extra condition `variant_id == <id>` injected for a variant. -/
def variantCondition (variant_id : String) : Json :=
  .obj [("==", .arr [.obj [("var", .str "variant_id")], .str variant_id])]

/-- Modelled from the spec: `add_variant_dimension_to_ctx` (its body lives in
the experimentation-platform helpers module, not among the excerpted sources).
The variant-id equality condition is merged into the base context: appended to
an existing `"and"` condition list, otherwise paired with the base condition
under a fresh `"and"`. `none` models its error (a non-object context or a
malformed `"and"` value), which the handler maps to an internal server
error. -/
def add_variant_dimension_to_ctx (context : Json) (variant_id : String) :
    Option Json :=
  match context with
  | .obj kvs =>
    match mapGet kvs "and" with
    | some (.arr conds) =>
      some (.obj [("and", .arr (conds ++ [variantCondition variant_id]))])
    | some _ => none
    | none => some (.obj [("and", .arr [context, variantCondition variant_id])])
  | _ => none

/-- The loop of handlers.rs:90-109: per variant, rewrite its id to
`experiment_id + "-" + id`, augment the base context with the variant-id
dimension, and build one PUT operation pairing the augmented context with the
variant overrides. `none` models the `?`-propagated internal server error
(augmentation failure or a non-object augmented context). -/
def buildOperations (context : Json) (experiment_id : Int) :
    List Variant → Option (List Variant × List ContextAction)
  | [] => some ([], [])
  | v :: vs =>
    let variant_id := toString experiment_id ++ "-" ++ v.id
    match add_variant_dimension_to_ctx context variant_id with
    | none => none
    | some updated_ctx =>
      match updated_ctx.getObj with
      | none => none
      | some updated_kvs =>
        match buildOperations context experiment_id vs with
        | none => none
        | some (vs', ops) =>
          some ({ v with id := variant_id } :: vs',
                ContextAction.PUT
                  { context := updated_kvs, override := v.overrides } :: ops)

/-- The loop of handlers.rs:131-136: `for i in 0..created_contexts.len()`
copies `context_id`/`override_id` onto `variants[i]` by position. A response
longer than the variant list indexes out of bounds: `none` models that panic.
A shorter response leaves the remaining variants untouched. -/
def updateVariantsWithContexts :
    List Variant → List ContextPutResp → Option (List Variant)
  | vs, [] => some vs
  | [], _ :: _ => none
  | v :: vs, c :: cs =>
    (updateVariantsWithContexts vs cs).map
      (fun rest =>
        { v with context_id := some c.context_id,
                 override_id := some c.override_id } :: rest)

/-- Observable side effects of the `create` handler, in program order. -/
inductive Effect where
  | MintId : Int → Effect
  | RemoteCall : List ContextAction → Effect
  | DbInsert : Experiment → Effect

/-- Outcome of the `create` handler: a `200` body carrying the experiment id,
an HTTP error, or a panic (the out-of-bounds index of handlers.rs:133). -/
inductive CreateResult where
  | ok : Int → CreateResult
  | badRequest : String → CreateResult
  | internalServerError : String → CreateResult
  | panic : CreateResult

/-- The `create` handler (handlers.rs:35-173), as a pure function of the
request and its environment: `validation` models `validate_experiment` (body
outside the excerpted sources; `.error` its `Err` arm, `.ok b` its validity
verdict), `experiment_id` the value produced by the locked snowflake
generator, `remote` the bulk call to the context store (`.error` a
transport/parse failure), and `dbInsert` the diesel insert. The first
component collects the side effects actually performed, in order. -/
def create (req : ExperimentCreateRequest) (email : String) (now : Int)
    (validation : Except Unit Bool) (experiment_id : Int)
    (remote : List ContextAction → Except Unit (List ContextPutResp))
    (dbInsert : Experiment → Except Unit Experiment) :
    List Effect × CreateResult :=
  match check_variant_types req.variants with
  | .error e => ([], .badRequest e)
  | .ok _ =>
    if ¬ check_variants_override_coverage req.variants req.override_keys then
      ([], .badRequest "all variants should contain the keys mentioned override_keys")
    else if ¬ req.context.isObject then
      ([], .badRequest "context should be map of key value pairs")
    else
      match validation with
      | .error _ => ([], .internalServerError "")
      | .ok false => ([], .badRequest "invalid experiment config")
      | .ok true =>
        match buildOperations req.context experiment_id req.variants with
        | none => ([.MintId experiment_id], .internalServerError "")
        | some (variants, cac_operations) =>
          match remote cac_operations with
          | .error _ =>
            ([.MintId experiment_id, .RemoteCall cac_operations],
             .internalServerError "")
          | .ok created_contexts =>
            match updateVariantsWithContexts variants created_contexts with
            | none =>
              ([.MintId experiment_id, .RemoteCall cac_operations], .panic)
            | some final_variants =>
              let new_experiment : Experiment :=
                { id := experiment_id
                  created_by := email
                  created_at := now
                  last_modified := none
                  name := req.name
                  override_keys := req.override_keys
                  traffic_percentage := req.traffic_percentage
                  status := .CREATED
                  context := req.context
                  variants := final_variants }
              match dbInsert new_experiment with
              | .ok inserted =>
                ([.MintId experiment_id, .RemoteCall cac_operations,
                  .DbInsert new_experiment], .ok inserted.id)
              | .error _ =>
                ([.MintId experiment_id, .RemoteCall cac_operations,
                  .DbInsert new_experiment],
                 .internalServerError "Failed to create experiment")

/-! ## Derived definitions used by the verification statements -/

/-- A flat JSON-logic condition: one operator key over a 2-element operand
array holding one variable reference and one literal value, the variable at
index 0 when `varFirst` and at index 1 otherwise. -/
structure FlatCond where
  op : String
  dim : String
  value : Json
  varFirst : Bool

/-- The `\x7b"var": name\x7d` variable-reference object. -/
def mkVarRef (name : String) : Json :=
  Json.obj [("var", Json.str name)]

/-- Operand array of a flat condition, in the order selected by `varFirst`. -/
def FlatCond.operands (c : FlatCond) : List Json :=
  if c.varFirst then [mkVarRef c.dim, c.value] else [c.value, mkVarRef c.dim]

/-- A flat condition as a JSON object. -/
def FlatCond.toJson (c : FlatCond) : Json :=
  Json.obj [(c.op, Json.arr c.operands)]

/-- A context of the form `\x7b"and": [cond, ...]\x7d` over flat conditions. -/
def mkAndContext (cs : List FlatCond) : Json :=
  Json.obj [("and", Json.arr (cs.map FlatCond.toJson))]

/-- The last value written for key `k` in a tuple sequence (`none` when the
key never occurs): the reference semantics for duplicate-key overwriting. -/
def lastWrite (k : String) (ts : List (String × Json)) : Option Json :=
  ts.foldl (fun acc kv => if kv.1 = k then some kv.2 else acc) none

/-! Concrete fixtures used by counterexamples and witnesses. -/

/-- Base targeting context `\x7b"==": [\x7b"var": "city"\x7d, "NY"]\x7d`. -/
def cBaseCtx : Json :=
  Json.obj [("==", Json.arr [Json.obj [("var", Json.str "city")], Json.str "NY"])]

/-- Control variant overriding key "a". -/
def cV0 : Variant := ⟨"ctrl", .CONTROL, [("a", Json.num 1)], none, none⟩

/-- Experimental variant overriding key "a". -/
def cV1 : Variant := ⟨"v1", .EXPERIMENTAL, [("a", Json.num 2)], none, none⟩

/-- A well-formed creation request with one control and one experimental
variant, both covering the declared override key "a". -/
def cReq : ExperimentCreateRequest := ⟨"exp1", ["a"], 50, cBaseCtx, [cV0, cV1]⟩

/-- The same request with only the experimental variant (violates type
cardinality). -/
def cReqBad : ExperimentCreateRequest := { cReq with variants := [cV1] }

/-- A request whose variants (ids "za", "zb") do not cover the declared
override key "zz". -/
def covReq : ExperimentCreateRequest :=
  { cReq with
      override_keys := ["a", "zz"],
      variants := [⟨"za", .CONTROL, [("a", Json.num 1)], none, none⟩,
                   ⟨"zb", .EXPERIMENTAL, [("a", Json.num 2)], none, none⟩] }

/-- A database stub that accepts every insert. -/
def cDbOk : Experiment → Except Unit Experiment := fun e => .ok e

/-- Run of `create` on `cReq` where the remote bulk call answers two PUT
operations with a single result. -/
def cShortRun : List Effect × CreateResult :=
  create cReq "u@x" 0 (.ok true) 7 (fun _ => .ok [⟨"cid", "oid"⟩]) cDbOk

/-- The experiment row `cShortRun` hands to the database: the second variant
still lacks `context_id`/`override_id`. -/
def cShortExp : Experiment :=
  { id := 7
    created_by := "u@x"
    created_at := 0
    last_modified := none
    name := "exp1"
    override_keys := ["a"]
    traffic_percentage := 50
    status := .CREATED
    context := cBaseCtx
    variants := [⟨"7-ctrl", .CONTROL, [("a", Json.num 1)], some "cid", some "oid"⟩,
                 ⟨"7-v1", .EXPERIMENTAL, [("a", Json.num 2)], none, none⟩] }

/-- The augmented context body for a variant of `cReq` under experiment id 7. -/
def cAug (v : Variant) : List (String × Json) :=
  [("and", Json.arr [cBaseCtx, variantCondition ("7-" ++ v.id)])]

/-! ## Helper lemmas -/

/-- When no operand is a variable reference, the positional search fails. -/
theorem findVar_eq_none (ops : List Json) (i : Nat)
    (h : ∀ o ∈ ops, isVariableReference o = false) : findVar ops i = none := by
  induction ops generalizing i with
  | nil => rfl
  | cons x xs ih =>
    have hx : isVariableReference x = false := h x (by simp)
    simp only [findVar, hx, Bool.false_eq_true, if_false]
    exact ih (i + 1) (fun o ho => h o (by simp [ho]))

/-- With no variable-reference operand, extraction of the pair fails with the
name-lookup `BadArgument`. -/
theorem gvnv_no_var (ops : List Json)
    (h : ∀ o ∈ ops, isVariableReference o = false) :
    get_variable_name_and_value ops
      = .error (.BadArgument "Failed to get variable name from operands list. Ensure the context provided obeys the rules of JSON logic") := by
  unfold get_variable_name_and_value
  rw [findVar_eq_none ops 0 h]

/-- A variable reference in head position pairs its name with the second
operand, whatever follows. -/
theorem gvnv_var_head (x : String) (w : Json) (rest : List Json) :
    get_variable_name_and_value (mkVarRef x :: w :: rest) = .ok (x, w) := rfl

/-- A non-variable head followed by a variable reference pairs the variable
name with the head operand. -/
theorem gvnv_var_second (x : String) (u : Json) (rest : List Json)
    (hu : isVariableReference u = false) :
    get_variable_name_and_value (u :: mkVarRef x :: rest) = .ok (x, u) := by
  unfold get_variable_name_and_value findVar
  rw [hu]
  rfl

/-! ## C10: pod/deployment discriminators from the hostname -/

/-- C10: `get_pod_info` derives the pod and deployment discriminators from the
end of the hostname: when splitting on dashes yields at least three tokens it
returns the last and third-from-last tokens, discarding everything before
them; with fewer than three tokens, or with HOSTNAME unset, it panics. -/
theorem get_pod_info_spec (h : String) :
    (∀ pod rep dep rest, (splitDash h).reverse = pod :: rep :: dep :: rest →
      get_pod_info (some h) = some (pod, dep))
    ∧ ((splitDash h).length < 3 → get_pod_info (some h) = none)
    ∧ get_pod_info none = none := by
  refine ⟨?_, ?_, rfl⟩
  · intro pod rep dep rest hrev
    simp only [get_pod_info, hrev]
  · intro hlen
    have hlen' : (splitDash h).reverse.length < 3 := by
      rw [List.length_reverse]; exact hlen
    simp only [get_pod_info]
    cases hrev : (splitDash h).reverse with
    | nil => rfl
    | cons a t =>
      cases t with
      | nil => rfl
      | cons b t2 =>
        cases t2 with
        | nil => rfl
        | cons c t3 =>
          rw [hrev] at hlen'
          simp at hlen'
          omega

/-- Witness for C10 at concrete hostnames. -/
theorem get_pod_info_spec_witness :
    get_pod_info (some "myapp-57bd6b-abcde") = some ("abcde", "myapp")
    ∧ get_pod_info (some "a-b") = none
    ∧ get_pod_info none = none :=
  ⟨(get_pod_info_spec "myapp-57bd6b-abcde").1 "abcde" "57bd6b" "myapp" []
      (by decide),
   (get_pod_info_spec "a-b").2.1 (by decide),
   (get_pod_info_spec "a-b").2.2⟩

/-! ## C2: variable-reference axis of operand validation -/

/-- C2 counterexample: when both operands are variable references the claim
says extraction fails, but the code takes the first reference as the variable
and the second as the value and succeeds. -/
theorem gvnv_both_vars_succeeds :
    get_variable_name_and_value
      [Json.obj [("var", Json.str "a")], Json.obj [("var", Json.str "b")]]
      = .ok ("a", Json.obj [("var", Json.str "b")]) := rfl

/-- C2 (amended): extraction fails with `BadArgument` when no operand is a
variable reference; when exactly one operand of a 2-element array is a
variable reference, extraction succeeds whichever position it occupies (and
two variable references also succeed, per the counterexample). -/
theorem gvnv_variable_axis (operands : List Json) :
    ((∀ o ∈ operands, isVariableReference o = false) →
      get_variable_name_and_value operands
        = .error (.BadArgument "Failed to get variable name from operands list. Ensure the context provided obeys the rules of JSON logic"))
    ∧ (∀ x v, isVariableReference v = false →
        get_variable_name_and_value [mkVarRef x, v] = .ok (x, v))
    ∧ (∀ x v, isVariableReference v = false →
        get_variable_name_and_value [v, mkVarRef x] = .ok (x, v)) :=
  ⟨fun h => gvnv_no_var operands h,
   fun x v _ => gvnv_var_head x v [],
   fun x v hv => gvnv_var_second x v [] hv⟩

/-- Witness for C2 (amended) at concrete operand arrays. -/
theorem gvnv_variable_axis_witness :
    get_variable_name_and_value [Json.num 1, Json.num 2]
      = .error (.BadArgument "Failed to get variable name from operands list. Ensure the context provided obeys the rules of JSON logic")
    ∧ get_variable_name_and_value [mkVarRef "x", Json.num 1] = .ok ("x", Json.num 1)
    ∧ get_variable_name_and_value [Json.num 1, mkVarRef "x"] = .ok ("x", Json.num 1) :=
  ⟨(gvnv_variable_axis [Json.num 1, Json.num 2]).1 (by intro o ho; fin_cases ho <;> rfl),
   (gvnv_variable_axis []).2.1 "x" (Json.num 1) rfl,
   (gvnv_variable_axis []).2.2 "x" (Json.num 1) rfl⟩

/-! ## C3: operand-arity axis of operand validation -/

/-- C3 counterexample: a 3-element operand array is accepted; the claim says
any operand array that is not exactly 2 elements is rejected. -/
theorem extract_three_operands_succeeds :
    extract_dimensions (Json.obj [("==", Json.arr
      [Json.obj [("var", Json.str "x")], Json.num 1, Json.num 2])])
      = .ok [("x", Json.num 1)] := rfl

/-- C3 (amended): extraction fails with `BadArgument` when an operator value
is not an array at all, or is an array of fewer than 2 elements; an array of 2
or more elements whose head is a variable reference is accepted, the value
taken from index 1 and any further elements ignored. -/
theorem extract_operand_arity (operator : String) (v : Json)
    (operands : List Json) :
    (operator ≠ "and" → v.getArr = none →
      extract_dimensions (Json.obj [(operator, v)])
        = .error (.BadArgument "Failed to parse operands as an arrays. Ensure the context provided obeys the rules of JSON logic"))
    ∧ (operands.length < 2 →
        ∃ msg, get_variable_name_and_value operands = .error (.BadArgument msg))
    ∧ (∀ x w rest,
        get_variable_name_and_value (mkVarRef x :: w :: rest) = .ok (x, w)) := by
  refine ⟨?_, ?_, fun x w rest => gvnv_var_head x w rest⟩
  · intro hop hv
    simp only [extract_dimensions, Json.getObj, mapGet, if_neg hop]
    cases v <;> simp_all [Json.getArr, conditionsTuples, Json.getObj, conditionTuples]
  · intro hlen
    match operands with
    | [] => exact ⟨_, rfl⟩
    | [o] =>
      cases ho : isVariableReference o with
      | false =>
        exact ⟨_, gvnv_no_var [o] (by intro x hx; simp at hx; subst hx; exact ho)⟩
      | true =>
        simp only [get_variable_name_and_value, findVar, ho, if_true]
        rcases hname : (o.getObj.bind (fun kvs => mapGet kvs "var")).bind Json.getStr
          with _ | n
        · exact ⟨_, rfl⟩
        · exact ⟨_, rfl⟩
    | _ :: _ :: _ => simp at hlen; omega

/-- Witness for C3 (amended) at concrete inputs. -/
theorem extract_operand_arity_witness :
    extract_dimensions (Json.obj [("==", Json.str "notanarray")])
      = .error (.BadArgument "Failed to parse operands as an arrays. Ensure the context provided obeys the rules of JSON logic")
    ∧ (∃ msg, get_variable_name_and_value [mkVarRef "x"]
        = .error (.BadArgument msg))
    ∧ get_variable_name_and_value [mkVarRef "x", Json.num 1, Json.num 2, Json.num 3]
      = .ok ("x", Json.num 1) :=
  ⟨(extract_operand_arity "==" (Json.str "notanarray") []).1 (by decide) rfl,
   (extract_operand_arity "==" Json.null [mkVarRef "x"]).2.1 (by decide),
   (extract_operand_arity "==" Json.null []).2.2 "x" (Json.num 1) [Json.num 2, Json.num 3]⟩

/-! ## C4: flat-condition extraction, ordering and duplicate handling -/

/-- Inserting a fresh key appends it at the end. -/
theorem mapInsert_not_mem (m : List (String × Json)) (k : String) (v : Json)
    (h : ∀ p ∈ m, p.1 ≠ k) : mapInsert m k v = m ++ [(k, v)] := by
  induction m with
  | nil => rfl
  | cons a t ih =>
    obtain ⟨a1, a2⟩ := a
    have ha : a1 ≠ k := h (a1, a2) (by simp)
    simp only [mapInsert, if_neg ha, List.cons_append]
    rw [ih (fun p hp => h p (by simp [hp]))]

/-- Folding fresh, pairwise-distinct keys into a map appends them in order. -/
theorem foldl_mapInsert_eq_append (ts : List (String × Json)) :
    ∀ m : List (String × Json),
      (∀ kv ∈ ts, ∀ p ∈ m, p.1 ≠ kv.1) → (ts.map Prod.fst).Nodup →
      ts.foldl (fun m kv => mapInsert m kv.1 kv.2) m = m ++ ts := by
  induction ts with
  | nil => intro m _ _; simp
  | cons kv ts ih =>
    intro m hdisj hnd
    have h1 : mapInsert m kv.1 kv.2 = m ++ [kv] := by
      have := mapInsert_not_mem m kv.1 kv.2 (fun p hp => hdisj kv (by simp) p hp)
      simpa using this
    simp only [List.foldl_cons, h1]
    rw [ih (m ++ [kv]) ?_ ?_]
    · simp
    · intro kv' hkv' p hp
      rcases List.mem_append.mp hp with hp | hp
      · exact hdisj kv' (by simp [hkv']) p hp
      · simp at hp
        subst hp
        simp only [List.map_cons, List.nodup_cons] at hnd
        intro hk
        exact hnd.1 (hk ▸ List.mem_map_of_mem Prod.fst hkv')
    · simp only [List.map_cons, List.nodup_cons] at hnd
      exact hnd.2

/-- De-duplication is the identity on tuple sequences with pairwise-distinct
keys. -/
theorem mapFromIter_nodup (ts : List (String × Json))
    (h : (ts.map Prod.fst).Nodup) : mapFromIter ts = ts := by
  have := foldl_mapInsert_eq_append ts [] (by intro kv _ p hp; simp at hp) h
  simpa [mapFromIter] using this

/-- Lookup after insertion: the inserted key reads back the new value, other
keys are unchanged. -/
theorem mapGet_mapInsert (m : List (String × Json)) (k : String) (v : Json)
    (x : String) :
    mapGet (mapInsert m k v) x = if k = x then some v else mapGet m x := by
  induction m with
  | nil => simp [mapInsert, mapGet]
  | cons a t ih =>
    obtain ⟨a1, a2⟩ := a
    by_cases hak : a1 = k
    · subst hak
      simp only [mapInsert, if_pos rfl, mapGet]
      split_ifs <;> rfl
    · simp only [mapInsert, if_neg hak, mapGet, ih]
      split_ifs <;> simp_all

/-- Lookup through the insertion fold computes the running last-write. -/
theorem mapGet_foldl_mapInsert (ts : List (String × Json)) :
    ∀ (m : List (String × Json)) (k : String),
      mapGet (ts.foldl (fun m kv => mapInsert m kv.1 kv.2) m) k
        = ts.foldl (fun acc kv => if kv.1 = k then some kv.2 else acc)
            (mapGet m k) := by
  induction ts with
  | nil => intro m k; rfl
  | cons kv ts ih =>
    intro m k
    simp only [List.foldl_cons]
    rw [ih, mapGet_mapInsert]

/-- Lookup in the de-duplicated map returns the last written value. -/
theorem mapGet_mapFromIter (ts : List (String × Json)) (k : String) :
    mapGet (mapFromIter ts) k = lastWrite k ts := by
  have := mapGet_foldl_mapInsert ts [] k
  simpa [mapFromIter, lastWrite, mapGet] using this

/-- Extraction of a flat condition is operand-order independent. -/
theorem gvnv_operands (c : FlatCond)
    (h : isVariableReference c.value = false) :
    get_variable_name_and_value c.operands = .ok (c.dim, c.value) := by
  unfold FlatCond.operands
  cases hvf : c.varFirst with
  | true =>
    simp only [hvf, if_true]
    exact gvnv_var_head c.dim c.value []
  | false =>
    simp only [hvf, Bool.false_eq_true, if_false]
    exact gvnv_var_second c.dim c.value [] h

/-- The condition loop over flat conditions yields one tuple per condition,
in condition order. -/
theorem conditionsTuples_flat (cs : List FlatCond)
    (h : ∀ c ∈ cs, isVariableReference c.value = false) :
    conditionsTuples (cs.map FlatCond.toJson)
      = .ok (cs.map (fun c => (c.dim, c.value))) := by
  induction cs with
  | nil => rfl
  | cons c cs ih =>
    simp only [List.map_cons, conditionsTuples, FlatCond.toJson, Json.getObj,
      conditionTuples, gvnv_operands c (h c (by simp))]
    rw [ih (fun c' hc' => h c' (by simp [hc']))]
    rfl

/-- C4: for a context of N flat conditions the extractor returns one tuple per
condition; the result does not depend on whether the variable operand is at
index 0 or 1; with pairwise-distinct dimension names the output is exactly the
N tuples in discovery order; and a recurring dimension name reads back the
last written value. -/
theorem extract_flat_conditions (cs : List FlatCond)
    (hnv : ∀ c ∈ cs, isVariableReference c.value = false) :
    extract_dimensions (mkAndContext cs)
      = .ok (mapFromIter (cs.map (fun c => (c.dim, c.value))))
    ∧ ((cs.map FlatCond.dim).Nodup →
        mapFromIter (cs.map (fun c => (c.dim, c.value)))
          = cs.map (fun c => (c.dim, c.value)))
    ∧ ((cs.map FlatCond.dim).Nodup →
        (mapFromIter (cs.map (fun c => (c.dim, c.value)))).length = cs.length)
    ∧ (∀ ts k, mapGet (mapFromIter ts) k = lastWrite k ts) := by
  have hkeys : ∀ (cs' : List FlatCond),
      (cs'.map (fun c => (c.dim, c.value))).map Prod.fst = cs'.map FlatCond.dim := by
    intro cs'
    rw [List.map_map]
    rfl
  refine ⟨?_, ?_, ?_, fun ts k => mapGet_mapFromIter ts k⟩
  · simp [extract_dimensions, mkAndContext, Json.getObj, mapGet,
      conditionsTuples_flat cs hnv]
  · intro hnd
    exact mapFromIter_nodup _ (by rw [hkeys]; exact hnd)
  · intro hnd
    rw [mapFromIter_nodup _ (by rw [hkeys]; exact hnd), List.length_map]

/-- Witness for C4 at a concrete two-condition context with the variable
operand on different sides. -/
theorem extract_flat_conditions_witness :
    extract_dimensions
        (mkAndContext [⟨"==", "city", Json.str "NY", true⟩,
                       ⟨"==", "tier", Json.num 3, false⟩])
      = .ok (mapFromIter [("city", Json.str "NY"), ("tier", Json.num 3)])
    ∧ (([⟨"==", "city", Json.str "NY", true⟩,
         (⟨"==", "tier", Json.num 3, false⟩ : FlatCond)].map FlatCond.dim).Nodup →
        mapFromIter [("city", Json.str "NY"), ("tier", Json.num 3)]
          = [("city", Json.str "NY"), ("tier", Json.num 3)])
    ∧ (([⟨"==", "city", Json.str "NY", true⟩,
         (⟨"==", "tier", Json.num 3, false⟩ : FlatCond)].map FlatCond.dim).Nodup →
        (mapFromIter [("city", Json.str "NY"), ("tier", Json.num 3)]).length = 2)
    ∧ (∀ ts k, mapGet (mapFromIter ts) k = lastWrite k ts) :=
  extract_flat_conditions
    [⟨"==", "city", Json.str "NY", true⟩, ⟨"==", "tier", Json.num 3, false⟩]
    (by intro c hc; fin_cases hc <;> rfl)

/-! ## C6: variant-type cardinality -/

/-- The scan of `check_variant_types` counts the CONTROL and EXPERIMENTAL
variants. -/
theorem variant_counts (vs : List Variant) :
    ∀ a b : Nat,
      vs.foldl (fun (acc : Nat × Nat) v =>
        match v.variant_type with
        | .CONTROL => (acc.1 + 1, acc.2)
        | .EXPERIMENTAL => (acc.1, acc.2 + 1)) (a, b)
      = (a + (vs.filter (fun v => v.variant_type = VariantType.CONTROL)).length,
         b + (vs.filter (fun v => v.variant_type = VariantType.EXPERIMENTAL)).length) := by
  induction vs with
  | nil => intro a b; simp
  | cons v vs ih =>
    intro a b
    cases hv : v.variant_type <;>
      simp [List.filter_cons, hv, ih] <;> omega

/-- C6: the create handler rejects the variant list with a client error unless
exactly one variant is CONTROL and at least one is EXPERIMENTAL; every list
with that distribution passes the cardinality check. -/
theorem variant_type_cardinality (req : ExperimentCreateRequest) (email : String)
    (now : Int) (validation : Except Unit Bool) (eid : Int)
    (remote : List ContextAction → Except Unit (List ContextPutResp))
    (dbInsert : Experiment → Except Unit Experiment) :
    (check_variant_types req.variants = .ok () ↔
      ((req.variants.filter (fun v => v.variant_type = VariantType.CONTROL)).length = 1
        ∧ 1 ≤ (req.variants.filter (fun v => v.variant_type = VariantType.EXPERIMENTAL)).length))
    ∧ (∀ e, check_variant_types req.variants = .error e →
        create req email now validation eid remote dbInsert
          = ([], CreateResult.badRequest e)) := by
  constructor
  · unfold check_variant_types
    rw [variant_counts req.variants 0 0]
    simp only [Nat.zero_add]
    split_ifs with hc he
    · simp_all
    · constructor
      · intro h; exact absurd h (by simp)
      · intro h; omega
    · constructor
      · intro _; exact ⟨by omega, by omega⟩
      · intro _; rfl
  · intro e he
    simp [create, he]

/-- Witness for C6 at a request with zero CONTROL variants. -/
theorem variant_type_cardinality_witness :
    create cReqBad "u" 0 (.ok true) 7 (fun _ => .ok []) cDbOk
      = ([], CreateResult.badRequest
          "experiment must have exactly 1 control variant, found 0") :=
  (variant_type_cardinality cReqBad "u" 0 (.ok true) 7 (fun _ => .ok []) cDbOk).2
    "experiment must have exactly 1 control variant, found 0" rfl

/-! ## C5: override coverage -/

/-- C5 counterexample: for a request whose variants (ids "za", "zb") miss the
declared key "zz", the handler's error is a fixed message that does not even
contain the letter z, so it names neither the missing keys nor the offending
variant, contrary to the claim. -/
theorem coverage_error_fixed_message :
    create covReq "u" 0 (.ok true) 7 (fun _ => .ok []) cDbOk
      = ([], CreateResult.badRequest
          "all variants should contain the keys mentioned override_keys")
    ∧ ("all variants should contain the keys mentioned override_keys").data.contains 'z'
        = false
    ∧ 'z' ∈ "zz".data ∧ 'z' ∈ "za".data ∧ 'z' ∈ "zb".data :=
  ⟨rfl, by decide, by decide, by decide, by decide⟩

/-- C5 (amended): a coverage shortfall fails validation before any side effect
with the fixed message "all variants should contain the keys mentioned
override_keys" (the missing keys and offending variant are not named); a
variant set whose override keys cover every declared key always passes the
coverage check. -/
theorem override_coverage_spec (req : ExperimentCreateRequest) (email : String)
    (now : Int) (validation : Except Unit Bool) (eid : Int)
    (remote : List ContextAction → Except Unit (List ContextPutResp))
    (dbInsert : Experiment → Except Unit Experiment) :
    (check_variant_types req.variants = .ok () →
      check_variants_override_coverage req.variants req.override_keys = false →
      create req email now validation eid remote dbInsert
        = ([], CreateResult.badRequest
            "all variants should contain the keys mentioned override_keys"))
    ∧ (∀ (variants : List Variant) (ks : List String),
        (∀ v ∈ variants, ∀ k ∈ ks, (mapGet v.overrides k).isSome = true) →
        check_variants_override_coverage variants ks = true) := by
  constructor
  · intro h1 h2
    simp [create, h1, h2]
  · intro variants ks h
    simp only [check_variants_override_coverage, List.all_eq_true]
    exact h

/-- Witness for C5 (amended): the shortfall request is rejected with the fixed
message, and the fully-covering request passes the check. -/
theorem override_coverage_spec_witness :
    create covReq "u" 0 (.ok true) 7 (fun _ => .ok []) cDbOk
      = ([], CreateResult.badRequest
          "all variants should contain the keys mentioned override_keys")
    ∧ check_variants_override_coverage cReq.variants cReq.override_keys = true :=
  ⟨(override_coverage_spec covReq "u" 0 (.ok true) 7 (fun _ => .ok []) cDbOk).1
      rfl rfl,
   (override_coverage_spec cReq "u" 0 (.ok true) 7 (fun _ => .ok []) cDbOk).2
      cReq.variants cReq.override_keys (by decide)⟩

/-! ## C8: validation failures precede all side effects -/

/-- C8: when any of the three request validations fails (variant-type
cardinality, override coverage, or the context-shape check), `create` performs
no side effect at all — no experiment id is minted, no remote call is made, no
database insert is attempted — and answers a client error. -/
theorem validation_failure_no_side_effects (req : ExperimentCreateRequest)
    (email : String) (now : Int) (validation : Except Unit Bool) (eid : Int)
    (remote : List ContextAction → Except Unit (List ContextPutResp))
    (dbInsert : Experiment → Except Unit Experiment)
    (h : check_variant_types req.variants ≠ .ok ()
        ∨ check_variants_override_coverage req.variants req.override_keys = false
        ∨ req.context.isObject = false) :
    (create req email now validation eid remote dbInsert).1 = []
    ∧ ∃ msg, (create req email now validation eid remote dbInsert).2
        = CreateResult.badRequest msg := by
  cases hct : check_variant_types req.variants with
  | error e => exact ⟨by simp [create, hct], e, by simp [create, hct]⟩
  | ok u =>
    cases u
    rcases h with h | h | h
    · exact absurd hct h
    · exact ⟨by simp [create, hct, h],
        "all variants should contain the keys mentioned override_keys",
        by simp [create, hct, h]⟩
    · cases hcov : check_variants_override_coverage req.variants req.override_keys with
      | false =>
        exact ⟨by simp [create, hct, hcov],
          "all variants should contain the keys mentioned override_keys",
          by simp [create, hct, hcov]⟩
      | true =>
        exact ⟨by simp [create, hct, hcov, h],
          "context should be map of key value pairs",
          by simp [create, hct, hcov, h]⟩

/-- Witness for C8 at the coverage-shortfall request. -/
theorem validation_failure_no_side_effects_witness :
    (create covReq "u" 0 (.ok true) 7 (fun _ => .ok []) cDbOk).1 = []
    ∧ ∃ msg, (create covReq "u" 0 (.ok true) 7 (fun _ => .ok []) cDbOk).2
        = CreateResult.badRequest msg :=
  validation_failure_no_side_effects covReq "u" 0 (.ok true) 7 (fun _ => .ok [])
    cDbOk (Or.inr (Or.inl rfl))

/-! ## C7: id rewrite and one PUT operation per variant -/

/-- The operation-building loop, characterised: every variant id is rewritten
to `experiment_id + "-" + id` and one PUT pairs that variant's augmented
context with its overrides, in variant order. -/
theorem buildOperations_map (ctx : Json) (eid : Int)
    (augmented : Variant → List (String × Json)) :
    ∀ vs : List Variant,
      (∀ v ∈ vs, add_variant_dimension_to_ctx ctx (toString eid ++ "-" ++ v.id)
        = some (Json.obj (augmented v))) →
      buildOperations ctx eid vs
        = some (vs.map (fun v => { v with id := toString eid ++ "-" ++ v.id }),
                vs.map (fun v => ContextAction.PUT
                  { context := augmented v, override := v.overrides })) := by
  intro vs
  induction vs with
  | nil => intro _; rfl
  | cons v vs ih =>
    intro h
    simp only [buildOperations, h v (by simp), Json.getObj,
      ih (fun v' hv' => h v' (by simp [hv'])), List.map_cons]

/-- C7: under passing validation, each variant id is rewritten to
`experiment_id + "-" + original_id` and the operation list submitted to the
single remote bulk call is exactly one PUT per variant, in variant order, each
pairing that variant's augmented context with its overrides; the rewrite is
visible in the operations before the remote call is issued. -/
theorem create_put_per_variant (req : ExperimentCreateRequest) (email : String)
    (now : Int) (eid : Int)
    (remote : List ContextAction → Except Unit (List ContextPutResp))
    (dbInsert : Experiment → Except Unit Experiment)
    (augmented : Variant → List (String × Json))
    (h1 : check_variant_types req.variants = .ok ())
    (h2 : check_variants_override_coverage req.variants req.override_keys = true)
    (h3 : req.context.isObject = true)
    (haug : ∀ v ∈ req.variants,
      add_variant_dimension_to_ctx req.context (toString eid ++ "-" ++ v.id)
        = some (Json.obj (augmented v))) :
    buildOperations req.context eid req.variants
      = some (req.variants.map (fun v => { v with id := toString eid ++ "-" ++ v.id }),
              req.variants.map (fun v => ContextAction.PUT
                { context := augmented v, override := v.overrides }))
    ∧ (create req email now (.ok true) eid remote dbInsert).1.take 2
        = [Effect.MintId eid,
           Effect.RemoteCall (req.variants.map (fun v => ContextAction.PUT
             { context := augmented v, override := v.overrides }))] := by
  have hb := buildOperations_map req.context eid augmented req.variants haug
  refine ⟨hb, ?_⟩
  rcases hrem : remote (req.variants.map (fun v => ContextAction.PUT
      { context := augmented v, override := v.overrides })) with u | created
  · simp [create, h1, h2, h3, hb, hrem]
  · rcases hupd : updateVariantsWithContexts
        (req.variants.map (fun v => { v with id := toString eid ++ "-" ++ v.id }))
        created with _ | fv
    · simp [create, h1, h2, h3, hb, hrem, hupd]
    · rcases hdb : dbInsert
          { id := eid, created_by := email, created_at := now,
            last_modified := none, name := req.name,
            override_keys := req.override_keys,
            traffic_percentage := req.traffic_percentage,
            status := .CREATED, context := req.context, variants := fv }
        with u | ins
      · simp [create, h1, h2, h3, hb, hrem, hupd, hdb]
      · simp [create, h1, h2, h3, hb, hrem, hupd, hdb]

/-- Witness for C7 at the concrete request and experiment id 7. -/
theorem create_put_per_variant_witness :
    buildOperations cReq.context 7 cReq.variants
      = some (cReq.variants.map
                (fun v => { v with id := toString (7 : Int) ++ "-" ++ v.id }),
              cReq.variants.map (fun v => ContextAction.PUT
                { context := cAug v, override := v.overrides }))
    ∧ (create cReq "u" 0 (.ok true) 7 (fun _ => .ok []) cDbOk).1.take 2
        = [Effect.MintId 7,
           Effect.RemoteCall (cReq.variants.map (fun v => ContextAction.PUT
             { context := cAug v, override := v.overrides }))] :=
  create_put_per_variant cReq "u" 0 7 (fun _ => .ok []) cDbOk cAug rfl rfl rfl
    (by intro v hv; fin_cases hv <;> rfl)

/-! ## C1: bulk-response length vs persistence -/

/-- A response longer than the variant list makes the fan-back loop index out
of bounds. -/
theorem update_longer_none :
    ∀ (vs : List Variant) (cs : List ContextPutResp),
      vs.length < cs.length → updateVariantsWithContexts vs cs = none := by
  intro vs
  induction vs with
  | nil =>
    intro cs h
    cases cs with
    | nil => simp at h
    | cons c cs => rfl
  | cons v vs ih =>
    intro cs h
    cases cs with
    | nil => simp at h
    | cons c cs =>
      simp only [updateVariantsWithContexts]
      rw [ih cs (by simpa using Nat.lt_of_succ_lt_succ h)]
      rfl

/-- A response no longer than the variant list updates a positional prefix and
leaves the remaining variants untouched. -/
theorem update_le_some :
    ∀ (cs : List ContextPutResp) (vs : List Variant),
      cs.length ≤ vs.length →
      ∃ res, updateVariantsWithContexts vs cs = some res
        ∧ res.length = vs.length
        ∧ ∀ i, cs.length ≤ i → res.get? i = vs.get? i := by
  intro cs
  induction cs with
  | nil =>
    intro vs _
    exact ⟨vs, by simp [updateVariantsWithContexts], rfl, fun i _ => rfl⟩
  | cons c cs ih =>
    intro vs h
    cases vs with
    | nil => simp at h
    | cons v vs =>
      obtain ⟨res, hres, hlen, hget⟩ :=
        ih vs (by simpa using Nat.le_of_succ_le_succ h)
      refine ⟨{ v with context_id := some c.context_id,
                       override_id := some c.override_id } :: res, ?_, by simp [hlen], ?_⟩
      · simp only [updateVariantsWithContexts, hres]
        rfl
      · intro i hi
        cases i with
        | zero => exact absurd hi (by simp)
        | succ j =>
          simp only [List.get?_cons_succ]
          exact hget j (by simpa using Nat.le_of_succ_le_succ hi)

/-- C1 (amended): the handler never compares the bulk-response length with the
operation count. A response with more results than variants makes the request
fail by an index panic before any insert, so nothing is persisted; but a
response with fewer results than variants is accepted, the ids are fanned onto
a positional prefix of the variants, and the experiment is handed to the
database with every variant beyond the response length still lacking
`context_id`/`override_id`. -/
theorem create_response_length (req : ExperimentCreateRequest) (email : String)
    (now : Int) (eid : Int) (created : List ContextPutResp)
    (dbInsert : Experiment → Except Unit Experiment)
    (augmented : Variant → List (String × Json))
    (h1 : check_variant_types req.variants = .ok ())
    (h2 : check_variants_override_coverage req.variants req.override_keys = true)
    (h3 : req.context.isObject = true)
    (haug : ∀ v ∈ req.variants,
      add_variant_dimension_to_ctx req.context (toString eid ++ "-" ++ v.id)
        = some (Json.obj (augmented v)))
    (hnone : ∀ v ∈ req.variants, v.context_id = none ∧ v.override_id = none) :
    (req.variants.length < created.length →
      (create req email now (.ok true) eid (fun _ => .ok created) dbInsert).2
          = CreateResult.panic
        ∧ ∀ e, Effect.DbInsert e
            ∉ (create req email now (.ok true) eid (fun _ => .ok created) dbInsert).1)
    ∧ (created.length ≤ req.variants.length →
        ∃ exp, Effect.DbInsert exp
            ∈ (create req email now (.ok true) eid (fun _ => .ok created) dbInsert).1
          ∧ exp.variants.length = req.variants.length
          ∧ ∀ i, created.length ≤ i → i < exp.variants.length →
              (exp.variants.get? i).map Variant.context_id = some none
              ∧ (exp.variants.get? i).map Variant.override_id = some none) := by
  have hb := buildOperations_map req.context eid augmented req.variants haug
  constructor
  · intro hlt
    have hupd := update_longer_none
      (req.variants.map (fun v => { v with id := toString eid ++ "-" ++ v.id }))
      created (by simpa using hlt)
    constructor
    · simp [create, h1, h2, h3, hb, hupd]
    · intro e he
      simp [create, h1, h2, h3, hb, hupd] at he
  · intro hle
    obtain ⟨res, hres, hlen, hget⟩ := update_le_some created
      (req.variants.map (fun v => { v with id := toString eid ++ "-" ++ v.id }))
      (by simpa using hle)
    have hres_tail : ∀ i, created.length ≤ i → i < res.length →
        (res.get? i).map Variant.context_id = some none
        ∧ (res.get? i).map Variant.override_id = some none := by
      intro i hi hilt
      rw [hget i hi, List.get?_map]
      have hidx : i < req.variants.length := by
        rw [hlen, List.length_map] at hilt; exact hilt
      have hsome : req.variants.get? i = some req.variants[i] := by
        simp [List.get?_eq_getElem?, List.getElem?_eq_getElem hidx]
      rw [hsome]
      obtain ⟨hcid, hoid⟩ := hnone _ (List.getElem_mem hidx)
      simp [hcid, hoid]
    refine ⟨{ id := eid, created_by := email, created_at := now,
              last_modified := none, name := req.name,
              override_keys := req.override_keys,
              traffic_percentage := req.traffic_percentage, status := .CREATED,
              context := req.context, variants := res }, ?_, ?_, ?_⟩
    · simp [create, h1, h2, h3, hb, hres]
      cases dbInsert _ with
      | ok _ => simp
      | error _ => simp
    · simpa using hlen
    · intro i hi hilt
      exact hres_tail i hi (by simpa using hilt)

/-- C1 counterexample: the remote bulk call answers the two PUT operations of
`cReq` with a single result, yet the request succeeds (200 with the experiment
id) and the experiment row handed to the database has its second variant still
lacking `context_id`/`override_id` — the claim says such a request fails with
no local persistence. -/
theorem create_short_response_persists :
    cShortRun.2 = CreateResult.ok 7
    ∧ cShortRun.1.getLast? = some (Effect.DbInsert cShortExp)
    ∧ cShortExp.variants.getLast?.map Variant.context_id = some none
    ∧ cShortExp.variants.getLast?.map Variant.override_id = some none
    ∧ cShortRun.1.length = 3 :=
  ⟨rfl, rfl, rfl, rfl, rfl⟩

/-- Witness for C1 (amended) at the concrete request with a one-element
response for two variants. -/
theorem create_response_length_witness :
    (cReq.variants.length < [(⟨"cid", "oid"⟩ : ContextPutResp)].length →
      (create cReq "u@x" 0 (.ok true) 7
          (fun _ => .ok [⟨"cid", "oid"⟩]) cDbOk).2 = CreateResult.panic
        ∧ ∀ e, Effect.DbInsert e
            ∉ (create cReq "u@x" 0 (.ok true) 7
                (fun _ => .ok [⟨"cid", "oid"⟩]) cDbOk).1)
    ∧ ([(⟨"cid", "oid"⟩ : ContextPutResp)].length ≤ cReq.variants.length →
        ∃ exp, Effect.DbInsert exp
            ∈ (create cReq "u@x" 0 (.ok true) 7
                (fun _ => .ok [⟨"cid", "oid"⟩]) cDbOk).1
          ∧ exp.variants.length = cReq.variants.length
          ∧ ∀ i, [(⟨"cid", "oid"⟩ : ContextPutResp)].length ≤ i →
              i < exp.variants.length →
              (exp.variants.get? i).map Variant.context_id = some none
              ∧ (exp.variants.get? i).map Variant.override_id = some none) :=
  create_response_length cReq "u@x" 0 7 [⟨"cid", "oid"⟩] cDbOk cAug rfl rfl rfl
    (by intro v hv; fin_cases hv <;> rfl)
    (by intro v hv; fin_cases hv <;> exact ⟨rfl, rfl⟩)

end Superposition
